import Mathlib

/-!
Shallow embedding of the devlog CLI (src/devlog.js).

The program is a linear Node.js script: configuration persistence in
`~/.config/devlog.json`, git metadata extraction via `execSync`, log-entry
formatting, a single HTTP POST, and a git post-commit hook installer.

Modelling conventions:
* JavaScript objects (the parsed configuration JSON) are ordered
  association lists of `String × JVal`; property access is `lookupKey`
  (returning `none` for `undefined`) and property assignment is `setKey`
  (update in place or append, as JS does).
* JavaScript truthiness of a property read is `jsTruthy`; truthiness of a
  string-or-null value is `optStrTruthy`.
* External effects are oracles passed as explicit state: `ConfigFile` (the
  state of the config file on disk), `GitEnv` (outcomes of the three git
  subprocess invocations), `today` (the string produced by
  `new Date().toISOString().split("T")[0]`), `HttpEnv` (the network and
  HTTP response outcome), `FS` (the hook-relevant part of the repository
  filesystem).
* `process.exit(n)` is modelled by an `exitCode : Option Nat` field in each
  result structure (`some n` means the process terminated there); console
  output is accumulated in `stdout` / `stderr` lists, one entry per
  `console.log` / `console.error` call; git subprocess invocations are
  recorded in a `gitCalls` list.
* String helpers (`strTrim`, `strTake`, `strContains`) are defined over
  `String.data` so that they mirror JS `String.prototype.trim`,
  `substring(0, n)` and `includes` and evaluate by kernel reduction.
-/

namespace DevLog

/-- JSON scalar values appearing in the configuration object. -/
inductive JVal where
  | jnull : JVal
  | jbool : Bool → JVal
  | jnum : Int → JVal
  | jstr : String → JVal
deriving DecidableEq, Repr

/-- A JavaScript object (the parsed configuration JSON): ordered key/value pairs. -/
abbrev JObj := List (String × JVal)

/-- Property read `obj[key]`; `none` models `undefined`. -/
def lookupKey : JObj → String → Option JVal
  | [], _ => none
  | (k, v) :: rest, key => if k = key then some v else lookupKey rest key

/-- Property assignment `obj[key] = v`: overwrite in place, or append a new key. -/
def setKey : JObj → String → JVal → JObj
  | [], key, v => [(key, v)]
  | (k, w) :: rest, key, v =>
      if k = key then (k, v) :: rest else (k, w) :: setKey rest key v

/-- JS truthiness of a property read (`undefined`, `null`, `false`, `0`, `""` are falsy). -/
def jsTruthy : Option JVal → Bool
  | none => false
  | some .jnull => false
  | some (.jbool b) => b
  | some (.jnum n) => n != 0
  | some (.jstr s) => !s.data.isEmpty

/-- JS truthiness of a string-or-null value (empty string and null are falsy). -/
def optStrTruthy : Option String → Bool
  | none => false
  | some s => !s.data.isEmpty

/-- Interpolation of a property read into a JS template literal. -/
def jsTemplate : Option JVal → String
  | none => "undefined"
  | some .jnull => "null"
  | some (.jbool b) => if b then "true" else "false"
  | some (.jnum n) => toString n
  | some (.jstr s) => s

/-- JS whitespace recognised by `String.prototype.trim` (the characters git output can carry). -/
def isWsChar (c : Char) : Bool :=
  c == ' ' || c == '\t' || c == '\n' || c == '\r'

/-- Model of `s.trim()`. -/
def strTrim (s : String) : String :=
  ⟨((s.data.dropWhile isWsChar).reverse.dropWhile isWsChar).reverse⟩

/-- Model of `s.substring(0, n)`. -/
def strTake (s : String) (n : Nat) : String :=
  ⟨s.data.take n⟩

/-- Model of `s.includes(pat)`: some suffix of `s` starts with `pat`. -/
def strContains (s pat : String) : Bool :=
  (List.range (s.data.length + 1)).any
    (fun i => decide ((s.data.drop i).take pat.data.length = pat.data))

/-- State of the configuration file `~/.config/devlog.json` on disk. -/
inductive ConfigFile where
  | absent : ConfigFile
  | invalid : String → ConfigFile
  | valid : JObj → ConfigFile
deriving DecidableEq, Repr

/-- Model of `loadConfig()`: parsed object from disk, or `{}` when the file is missing;
a `JSON.parse` failure (carrying its error message) is caught, reported on
stderr, and also yields `{}`. The function is total: it never propagates an
exception to the caller. Returns (config, stderr lines). -/
def loadConfig : ConfigFile → JObj × List String
  | .absent => ([], [])
  | .invalid e => ([], ["Error reading config: " ++ e])
  | .valid cfg => (cfg, [])

/-- Outcomes of the git subprocess calls made by one invocation.
`lastMessageOut` / `lastHashOut` are the raw stdout of
`git log -1 --pretty=%B` / `git log -1 --pretty=%H` (`none` when the
subprocess throws); `msgErr` is the error message of a failed `%B` call. -/
structure GitEnv where
  lastMessageOut : Option String
  lastHashOut : Option String
  msgErr : String
  insideWorkTree : Bool
deriving DecidableEq, Repr

/-- Model of `getLastCommitHash()`: trimmed `%H` output cut to its first 8 characters,
or `null` when git fails. -/
def getLastCommitHash (g : GitEnv) : Option String :=
  match g.lastHashOut with
  | some out => some (strTake (strTrim out) 8)
  | none => none

/-- Model of `formatLogEntry(commitMessage, config)`: prepend `[hash] ` when
`config.includeCommitHash` is truthy and the hash lookup yields a truthy
string; otherwise return the message unchanged. -/
def formatLogEntry (commitMessage : String) (cfg : JObj) (g : GitEnv) : String :=
  if jsTruthy (lookupKey cfg "includeCommitHash") then
    let commitHash := getLastCommitHash g
    if optStrTruthy commitHash then
      "[" ++ commitHash.getD "" ++ "] " ++ commitMessage
    else commitMessage
  else commitMessage

/-- Fact about the source: `formatLogEntry` invokes `getLastCommitHash` (a git subprocess) exactly
when `config.includeCommitHash` is truthy. -/
def formatCallsGit (cfg : JObj) : Bool :=
  jsTruthy (lookupKey cfg "includeCommitHash")

/-- The date expression of `log`:
`customDate || (config.includeDate ? this.getCurrentDate() : undefined)`,
with `today` the string `getCurrentDate()` would return. -/
def logDate (customDate : Option String) (cfg : JObj) (today : String) : Option String :=
  if optStrTruthy customDate then customDate
  else if jsTruthy (lookupKey cfg "includeDate") then some today
  else none

/-- The HTTP response delivered to `postToApi`. `jsonErr` is the error message
of a failing `response.json()` on a 2xx response (`none` when parsing
succeeds); `messageField` is the `message` property of the parsed body. -/
structure ApiResponse where
  ok : Bool
  status : Nat
  statusText : String
  bodyText : String
  jsonErr : Option String
  messageField : Option String
deriving DecidableEq, Repr

/-- Network outcome of the single `fetch`: `networkErr = some e` means the
fetch itself threw with message `e`. -/
structure HttpEnv where
  networkErr : Option String
  response : ApiResponse
deriving DecidableEq, Repr

/-- The request `postToApi` constructs: URL and the JSON body
`{text, date}` (`date = none` models the field being `undefined`, which
`JSON.stringify` omits). -/
structure PostRequest where
  url : String
  text : String
  date : Option String
deriving DecidableEq, Repr

/-- Result of `postToApi`: the request it built, stderr, whether
`process.exit` fired, and on success the `message` field of the parsed body. -/
structure PostResult where
  request : PostRequest
  stderr : List String
  exitCode : Option Nat
  value : Option (Option String)
deriving DecidableEq, Repr

/-- The error message thrown on a non-2xx response:
`API request failed: <status> <statusText>\n<body>`. -/
def apiErrorMessage (r : ApiResponse) : String :=
  "API request failed: " ++ toString r.status ++ " " ++ r.statusText ++ "\n" ++ r.bodyText

/-- Model of `postToApi(text, date, config)`: one POST to
`config.apiBaseUrl + "/api/logs/append"`; any thrown error (network failure,
non-2xx response, JSON parse failure on a 2xx body) is caught, reported as
`Error posting to API: <message>` on stderr, and terminates with exit 1. -/
def postToApi (text : String) (date : Option String) (cfg : JObj) (http : HttpEnv) :
    PostResult :=
  let req : PostRequest :=
    { url := jsTemplate (lookupKey cfg "apiBaseUrl") ++ "/api/logs/append",
      text := text, date := date }
  match http.networkErr with
  | some e =>
      { request := req, stderr := ["Error posting to API: " ++ e],
        exitCode := some 1, value := none }
  | none =>
      if http.response.ok then
        match http.response.jsonErr with
        | some e =>
            { request := req, stderr := ["Error posting to API: " ++ e],
              exitCode := some 1, value := none }
        | none =>
            { request := req, stderr := [], exitCode := none,
              value := some http.response.messageField }
      else
        { request := req,
          stderr := ["Error posting to API: " ++ apiErrorMessage http.response],
          exitCode := some 1, value := none }

/-- The success line printed by `log`. -/
def successMsg : String := "✅ Successfully logged to devlog"

/-- Result of one `log` invocation. `request = some r` records the POST that
was built and handed to `fetch`; `gitCalls` lists the git subprocesses run,
in order; `exitCode = some n` means `process.exit(n)` fired. -/
structure LogResult where
  stdout : List String
  stderr : List String
  gitCalls : List String
  request : Option PostRequest
  exitCode : Option Nat
deriving DecidableEq, Repr

/-- Model of `log(customMessage, customDate)`: load the config, require a truthy
`apiKey`, take the custom message or fetch the last commit message
(fatal on git failure), format the entry, compute the date, print the
entry and date, and post. `none` arguments model the JS `null` defaults. -/
def log (customMessage customDate : Option String) (cf : ConfigFile) (g : GitEnv)
    (today : String) (http : HttpEnv) : LogResult :=
  let lc := loadConfig cf
  let config := lc.1
  let cfgErrs := lc.2
  if !jsTruthy (lookupKey config "apiKey") then
    { stdout := [],
      stderr := cfgErrs ++ ["No API key found. Please run \"devlog config\" first."],
      gitCalls := [], request := none, exitCode := some 1 }
  else
    let msgStep : Option (String × List String) :=
      if optStrTruthy customMessage then some (customMessage.getD "", [])
      else
        match g.lastMessageOut with
        | some out => some (strTrim out, ["git log -1 --pretty=%B"])
        | none => none
    match msgStep with
    | none =>
        { stdout := [],
          stderr := cfgErrs ++
            ["Error getting last commit message: " ++ g.msgErr,
             "Make sure you are in a git repository and have at least one commit."],
          gitCalls := ["git log -1 --pretty=%B"], request := none, exitCode := some 1 }
    | some (commitMessage, calls1) =>
        let logEntry := formatLogEntry commitMessage config g
        let calls2 := calls1 ++
          (if formatCallsGit config then ["git log -1 --pretty=%H"] else [])
        let date := logDate customDate config today
        let out1 := ["Logging: " ++ logEntry] ++
          (if optStrTruthy date then ["Date: " ++ date.getD ""] else [])
        let pr := postToApi logEntry date config http
        match pr.exitCode with
        | some c =>
            { stdout := out1, stderr := cfgErrs ++ pr.stderr, gitCalls := calls2,
              request := some pr.request, exitCode := some c }
        | none =>
            let out2 := out1 ++ [successMsg] ++
              (match pr.value with
               | some (some m) => if !m.data.isEmpty then ["Response: " ++ m] else []
               | _ => [])
            { stdout := out2, stderr := cfgErrs, gitCalls := calls2,
              request := some pr.request, exitCode := none }

/-- The built-in default API base URL. -/
def defaultApiBaseUrl : String := "http://localhost:3001"

/-- The four interactive answers, as typed (before the `prompt` trim). -/
structure ConfigureAnswers where
  apiKey : String
  baseUrl : String
  includeHash : String
  includeDate : String
deriving DecidableEq, Repr

/-- Result of `configure()`: the object handed to `saveConfig` (when
reached), stderr, and the exit code if the flow terminated early. -/
structure ConfigureResult where
  saved : Option JObj
  stderr : List String
  exitCode : Option Nat
deriving DecidableEq, Repr

/-- Model of `configure()`: load the config, take the (trimmed) API key answer or keep
the existing key (fatal when neither exists), then assign `apiBaseUrl`
(answer, or existing value, or the default), `includeCommitHash` and
`includeDate` (`y` unless the answer is exactly `n`), and save. -/
def configure (cf : ConfigFile) (ans : ConfigureAnswers) : ConfigureResult :=
  let config := (loadConfig cf).1
  let apiKey := strTrim ans.apiKey
  let config1 :=
    if !apiKey.data.isEmpty then setKey config "apiKey" (.jstr apiKey) else config
  if apiKey.data.isEmpty && !jsTruthy (lookupKey config "apiKey") then
    { saved := none, stderr := ["API key is required."], exitCode := some 1 }
  else
    let currentBaseUrl : JVal :=
      match lookupKey config1 "apiBaseUrl" with
      | some v => if jsTruthy (some v) then v else .jstr defaultApiBaseUrl
      | none => .jstr defaultApiBaseUrl
    let baseUrl := strTrim ans.baseUrl
    let config2 := setKey config1 "apiBaseUrl"
      (if !baseUrl.data.isEmpty then .jstr baseUrl else currentBaseUrl)
    let config3 := setKey config2 "includeCommitHash" (.jbool (strTrim ans.includeHash ≠ "n"))
    let config4 := setKey config3 "includeDate" (.jbool (strTrim ans.includeDate ≠ "n"))
    { saved := some config4, stderr := [], exitCode := none }

/-- The hook-relevant filesystem state of the current repository:
whether `git rev-parse --is-inside-work-tree` succeeds, whether
`.git/hooks` exists, and the content / mode of `.git/hooks/post-commit`
and its `.backup` sibling. -/
structure FS where
  isGitRepo : Bool
  hooksDirExists : Bool
  hookFile : Option String
  hookMode : Option Nat
  backupFile : Option String
deriving DecidableEq, Repr

/-- Result of `installHook` / `installHookForce`. -/
structure InstallResult where
  fs : FS
  stdout : List String
  stderr : List String
  exitCode : Option Nat
deriving DecidableEq, Repr

/-- The fixed shell script `installHook` writes to `.git/hooks/post-commit`. -/
def hookContent : String :=
  "#!/bin/bash\n\n# post-commit hook for devlog\n# This script runs after each git commit and automatically logs the commit message\n\n# Check if devlog is available\nif ! command -v devlog &> /dev/null; then\n    echo \"devlog command not found. Please install devlog-cli first.\"\n    exit 0\nfi\n\n# Check if devlog is configured\nif [ ! -f \"$HOME/.config/devlog.json\" ]; then\n    echo \"devlog not configured. Run \x27devlog config\x27 first.\"\n    exit 0\nfi\n\n# Log the commit\necho \"📝 Logging commit to devlog...\"\ndevlog\n\n# Exit with status 0 to not interfere with git operations\nexit 0"

/-- Model of `installHook()`: require a git repository and a `.git/hooks` directory;
if a `post-commit` hook exists, only report (never write), distinguishing a
hook that already contains `devlog` from one that does not; otherwise write
the fixed script and `chmod 0o755` it. -/
def installHook (fs : FS) : InstallResult :=
  if !fs.isGitRepo then
    { fs := fs, stdout := [],
      stderr := ["❌ Current directory is not a git repository.",
                 "Please run this command from within a git repository."],
      exitCode := some 1 }
  else if !fs.hooksDirExists then
    { fs := fs, stdout := [],
      stderr := ["❌ .git/hooks directory not found.",
                 "This might not be a valid git repository."],
      exitCode := some 1 }
  else
    match fs.hookFile with
    | some existingHook =>
        if strContains existingHook "devlog" then
          { fs := fs,
            stdout := ["⚠️  post-commit hook already exists.",
                       "✅ devlog is already integrated in the existing hook."],
            stderr := [], exitCode := none }
        else
          { fs := fs,
            stdout := ["⚠️  post-commit hook already exists.",
                       "The existing hook does not contain devlog integration.",
                       "You can manually add \"devlog\" to your existing post-commit hook,",
                       "or backup and replace it by running this command with --force flag.",
                       "\nTo backup and replace: devlog install --force"],
            stderr := [], exitCode := none }
    | none =>
        { fs := { fs with hookFile := some hookContent, hookMode := some 0o755 },
          stdout := ["✅ Successfully installed devlog post-commit hook!",
                     "📁 Hook installed at: .git/hooks/post-commit",
                     "",
                     "🎉 devlog will now automatically log your commit messages.",
                     "💡 Make sure to run \"devlog config\" if you haven\x27t already."],
          stderr := [], exitCode := none }

/-- Model of `installHookForce()`: require a git repository; copy an existing
`post-commit` hook to its `.backup` sibling, delete the original, and fall
through to `installHook`. -/
def installHookForce (fs : FS) : InstallResult :=
  if !fs.isGitRepo then
    { fs := fs, stdout := [],
      stderr := ["❌ Current directory is not a git repository."],
      exitCode := some 1 }
  else
    match fs.hookFile with
    | some existing =>
        let fs2 : FS := { fs with backupFile := some existing, hookFile := none }
        let r := installHook fs2
        { r with stdout := ["📋 Backed up existing hook to: .git/hooks/post-commit.backup"]
                   ++ r.stdout }
    | none => installHook fs

/-- Environment the installed hook script runs in: whether the `devlog`
binary is on the PATH and whether `$HOME/.config/devlog.json` exists. -/
structure HookEnv where
  devlogAvailable : Bool
  configFileExists : Bool
deriving DecidableEq, Repr

/-- One run of the hook script. `invoked = some args` means the script ran
`devlog` with the argument list `args`. -/
structure HookRun where
  output : List String
  exitCode : Nat
  invoked : Option (List String)
deriving DecidableEq, Repr

/-- Shallow embedding of the shell script `hookContent`: when `devlog` is not
on the PATH, or the config file is absent, echo a notice and exit 0 without
running the tool; otherwise echo a progress line, run `devlog` with no
arguments, and exit 0. -/
def hookScriptRun (env : HookEnv) : HookRun :=
  if !env.devlogAvailable then
    { output := ["devlog command not found. Please install devlog-cli first."],
      exitCode := 0, invoked := none }
  else if !env.configFileExists then
    { output := ["devlog not configured. Run \x27devlog config\x27 first."],
      exitCode := 0, invoked := none }
  else
    { output := ["📝 Logging commit to devlog..."], exitCode := 0, invoked := some [] }

/-- The command each argv maps to. -/
inductive Action where
  | logLast : Action
  | runConfigure : Action
  | runInstall : Action
  | runInstallForce : Action
  | logCustom : String → Option String → Action
  | showHelp : Action
  | usageExit : Action
  | unknownExit : Action
deriving DecidableEq, Repr

/-- Model of the dispatch performed by `run()` on `process.argv.slice(2)`. -/
def dispatch (args : List String) : Action :=
  match args with
  | [] => .logLast
  | a0 :: rest =>
      if a0 = "config" then .runConfigure
      else if a0 = "install" then
        (if (a0 :: rest).contains "--force" then .runInstallForce else .runInstall)
      else if a0 = "log" then
        match rest with
        | [m] => .logCustom m none
        | [m, d] => .logCustom m (some d)
        | _ => .usageExit
      else if a0 = "help" || a0 = "--help" || a0 = "-h" then .showHelp
      else .unknownExit

end DevLog

namespace DevLog

def cfgHashOn : JObj :=
  [("apiKey", .jstr "k"), ("includeCommitHash", .jbool true), ("includeDate", .jbool true)]

def cfgHashOff : JObj :=
  [("apiKey", .jstr "k"), ("includeDate", .jbool true)]

def gitEnvA : GitEnv :=
  { lastMessageOut := some "Fix bug\n",
    lastHashOut := some "abcdef1234567890abcdef1234567890abcdef12\n",
    msgErr := "", insideWorkTree := true }

def httpOk : HttpEnv :=
  { networkErr := none,
    response := { ok := true, status := 200, statusText := "OK", bodyText := "",
                  jsonErr := none, messageField := none } }

def httpFail : HttpEnv :=
  { networkErr := none,
    response := { ok := false, status := 404, statusText := "Not Found",
                  bodyText := "no such log", jsonErr := none, messageField := none } }

/-- A repository state with no pre-existing post-commit hook. -/
def freshFS : FS := ⟨true, true, none, none, none⟩

/-- A repository state with a pre-existing hook that does not mention devlog. -/
def fsPlainHook : FS := ⟨true, true, some "#!/bin/sh\nexit 0", some 0o755, none⟩

/-- C5: loading the configuration from an absent file yields the empty object
with no output, and loading a file whose content fails `JSON.parse` yields
the empty object with the parse failure reported as a single non-fatal
stderr line. In both cases `loadConfig` returns normally to the caller: it
is a total function with no exit or exception channel. -/
theorem C5_loadConfig_empty_total :
    loadConfig .absent = ([], []) ∧
    ∀ e : String, loadConfig (.invalid e) = ([], ["Error reading config: " ++ e]) :=
  ⟨rfl, fun _ => rfl⟩

/-- C5 witness: a concrete corrupt file loads as the empty object with a
single stderr line. -/
theorem C5_witness :
    loadConfig (.invalid "Unexpected token") =
      ([], ["Error reading config: Unexpected token"]) :=
  C5_loadConfig_empty_total.2 "Unexpected token"

/-- C6: with a truthy `includeCommitHash` and a resolvable hash (git output
trimming to at least 8 characters), the formatted entry is
`[<first 8 chars of the hash>] <message>`; with `includeCommitHash` falsy,
or with the hash subprocess failing, the message is returned unchanged. -/
theorem C6_formatLogEntry_hash (cfg : JObj) (g : GitEnv) (msg : String) :
    (∀ out : String, g.lastHashOut = some out →
       jsTruthy (lookupKey cfg "includeCommitHash") = true →
       8 ≤ (strTrim out).data.length →
       formatLogEntry msg cfg g = "[" ++ strTake (strTrim out) 8 ++ "] " ++ msg) ∧
    (jsTruthy (lookupKey cfg "includeCommitHash") = false →
       formatLogEntry msg cfg g = msg) ∧
    (g.lastHashOut = none → formatLogEntry msg cfg g = msg) := by
  refine ⟨?_, ?_, ?_⟩
  · intro out hout htrue hlen
    have hne : (strTrim out).data.take 8 ≠ [] := by
      intro hnil
      rw [List.take_eq_nil_iff] at hnil
      rcases hnil with h8 | hnil
      · exact absurd h8 (by decide)
      · rw [hnil] at hlen
        simp at hlen
    simp only [formatLogEntry, getLastCommitHash, hout, htrue, if_true, optStrTruthy,
      strTake, Option.getD_some]
    rw [if_pos]
    simp only [Bool.not_eq_true', List.isEmpty_eq_false]
    exact hne
  · intro hfalse
    simp [formatLogEntry, hfalse]
  · intro hnone
    simp [formatLogEntry, getLastCommitHash, hnone, optStrTruthy]

/-- C6 witness: at a concrete configuration and git environment, the hash
prefix appears exactly when `includeCommitHash` is set. -/
theorem C6_witness :
    formatLogEntry "Fix bug" cfgHashOn gitEnvA = "[abcdef12] Fix bug" ∧
    formatLogEntry "Fix bug" cfgHashOff gitEnvA = "Fix bug" := by
  constructor
  · have h := (C6_formatLogEntry_hash cfgHashOn gitEnvA "Fix bug").1
      "abcdef1234567890abcdef1234567890abcdef12\n" rfl (by decide) (by decide)
    rw [h]
    decide
  · exact (C6_formatLogEntry_hash cfgHashOff gitEnvA "Fix bug").2.1 (by decide)

/-- C7: when a post-commit hook already exists, `installHook` (install
without `--force`) leaves the entire filesystem state unchanged — in
particular the hook content byte-for-byte — and, when the repository
checks pass, reports whether the existing hook contains the marker
`devlog`. -/
theorem C7_install_existing_untouched (fs : FS) (c : String) (h : fs.hookFile = some c) :
    (installHook fs).fs = fs ∧
    (fs.isGitRepo = true → fs.hooksDirExists = true →
      ((strContains c "devlog" = true →
         "✅ devlog is already integrated in the existing hook." ∈ (installHook fs).stdout) ∧
       (strContains c "devlog" = false →
         "The existing hook does not contain devlog integration." ∈ (installHook fs).stdout))) := by
  cases hg : fs.isGitRepo with
  | false => simp [installHook, hg]
  | true =>
    cases hd : fs.hooksDirExists with
    | false => simp [installHook, hg, hd]
    | true =>
      cases hc : strContains c "devlog" <;> simp [installHook, hg, hd, h, hc]

/-- C7 witness: a concrete pre-existing hook without the marker is left
unchanged and the non-integration notice is printed. -/
theorem C7_witness :
    (installHook fsPlainHook).fs = fsPlainHook ∧
    "The existing hook does not contain devlog integration." ∈ (installHook fsPlainHook).stdout := by
  have h := C7_install_existing_untouched fsPlainHook "#!/bin/sh\nexit 0" rfl
  exact ⟨h.1, (h.2 rfl rfl).2 (by decide)⟩

/-- C8: `install --force` on a repository with a pre-existing hook always
writes the original content to the `.backup` sibling, and (when the hooks
directory exists) leaves a hook file equal to the fresh-install template,
marked executable. -/
theorem C8_force_backs_up (fs : FS) (c : String)
    (h1 : fs.isGitRepo = true) (h3 : fs.hookFile = some c) :
    (installHookForce fs).fs.backupFile = some c ∧
    (fs.hooksDirExists = true →
      (installHookForce fs).fs.hookFile = some hookContent ∧
      (installHookForce fs).fs.hookMode = some 0o755) := by
  cases hd : fs.hooksDirExists <;>
    simp [installHookForce, installHook, h1, h3, hd]

/-- C8 witness: forcing over a concrete plain hook backs it up and installs
the template. -/
theorem C8_witness :
    (installHookForce fsPlainHook).fs.backupFile = some "#!/bin/sh\nexit 0" ∧
    (installHookForce fsPlainHook).fs.hookFile = some hookContent := by
  have h := C8_force_backs_up fsPlainHook "#!/bin/sh\nexit 0" rfl rfl
  exact ⟨h.1, (h.2 rfl).1⟩

/-- C3 counterexample: the script written by a fresh install does exit 0
without invoking the tool when the tool binary is absent, but it is not
silent there — it prints a notice line, refuting "producing no output". -/
theorem C3_counterexample :
    (installHook freshFS).fs.hookFile = some hookContent ∧
    (hookScriptRun ⟨false, true⟩).exitCode = 0 ∧
    (hookScriptRun ⟨false, true⟩).invoked = none ∧
    (hookScriptRun ⟨false, true⟩).output ≠ [] := by
  refine ⟨rfl, rfl, rfl, ?_⟩
  decide

/-- C3 (amended): a fresh install writes the fixed shell script and marks it
executable (mode 0o755); when the tool binary or the configuration file is
absent, the script exits with status 0 without invoking the tool, after
printing a one-line notice (it is not silent); otherwise it invokes the
tool with no arguments and exits 0. -/
theorem C3_hook_artifact (fs : FS) (env : HookEnv)
    (h1 : fs.isGitRepo = true) (h2 : fs.hooksDirExists = true) (h3 : fs.hookFile = none) :
    (installHook fs).fs.hookFile = some hookContent ∧
    (installHook fs).fs.hookMode = some 0o755 ∧
    (hookScriptRun env).exitCode = 0 ∧
    ((env.devlogAvailable = false ∨ env.configFileExists = false) →
       (hookScriptRun env).invoked = none ∧ (hookScriptRun env).output.length = 1) ∧
    (env.devlogAvailable = true → env.configFileExists = true →
       (hookScriptRun env).invoked = some [] ∧ (hookScriptRun env).output.length = 1) := by
  refine ⟨?_, ?_, ?_, ?_, ?_⟩
  · simp [installHook, h1, h2, h3]
  · simp [installHook, h1, h2, h3]
  · rcases env with ⟨da, ce⟩
    cases da <;> cases ce <;> rfl
  · rintro (hda | hce)
    · simp [hookScriptRun, hda]
    · rcases env with ⟨da, ce⟩
      cases da <;> simp_all [hookScriptRun]
  · intro hda hce
    simp [hookScriptRun, hda, hce]

/-- C3 witness: on the fresh repository, the hook is written, and when both
the tool and its configuration are present the script invokes the tool with
no arguments. -/
theorem C3_witness :
    (installHook freshFS).fs.hookFile = some hookContent ∧
    (hookScriptRun ⟨true, true⟩).invoked = some [] := by
  have h := C3_hook_artifact freshFS ⟨true, true⟩ rfl rfl rfl
  exact ⟨h.1, (h.2.2.2.2 rfl rfl).1⟩

/-- Assigning one key leaves the lookup of every other key unchanged. -/
theorem lookupKey_setKey_ne (o : JObj) (k k2 : String) (v : JVal) (h : k2 ≠ k) :
    lookupKey (setKey o k v) k2 = lookupKey o k2 := by
  induction o with
  | nil =>
      have hne : ¬(k = k2) := fun e => h e.symm
      simp [setKey, lookupKey, hne]
  | cons p rest ih =>
      rcases p with ⟨a, w⟩
      by_cases ha : a = k
      · have hne : ¬(a = k2) := fun e => h (ha.symm.trans e).symm
        subst ha
        simp [setKey, lookupKey, hne]
      · simp [setKey, lookupKey, ha, ih]

/-- C10: the interactive configure flow run on an existing configuration
object assigns only `apiKey`, `apiBaseUrl`, `includeCommitHash` and
`includeDate`; whenever it reaches the save, every other key of the saved
object has the value it had in the loaded object. -/
theorem C10_configure_preserves_extras (cfg : JObj) (ans : ConfigureAnswers)
    (k : String) (saved : JObj)
    (hk1 : k ≠ "apiKey") (hk2 : k ≠ "apiBaseUrl")
    (hk3 : k ≠ "includeCommitHash") (hk4 : k ≠ "includeDate")
    (hres : (configure (.valid cfg) ans).saved = some saved) :
    lookupKey saved k = lookupKey cfg k := by
  unfold configure at hres
  simp only [loadConfig] at hres
  by_cases hexit :
      ((strTrim ans.apiKey).data.isEmpty && !jsTruthy (lookupKey cfg "apiKey")) = true
  · rw [if_pos hexit] at hres
    exact absurd hres (by simp)
  · rw [if_neg hexit] at hres
    simp only [Option.some.injEq] at hres
    subst hres
    rw [lookupKey_setKey_ne _ _ _ _ hk4, lookupKey_setKey_ne _ _ _ _ hk3,
      lookupKey_setKey_ne _ _ _ _ hk2]
    by_cases hset : (!(strTrim ans.apiKey).data.isEmpty) = true
    · rw [if_pos hset, lookupKey_setKey_ne _ _ _ _ hk1]
    · rw [if_neg hset]

/-- C10 witness: a concrete configuration with an extra key keeps the value
of that key through the configure flow. -/
theorem C10_witness :
    lookupKey [("extra", JVal.jnum 7), ("apiKey", JVal.jstr "newkey"),
               ("apiBaseUrl", JVal.jstr "http://localhost:3001"),
               ("includeCommitHash", JVal.jbool false),
               ("includeDate", JVal.jbool true)] "extra" =
      lookupKey [("extra", JVal.jnum 7), ("apiKey", JVal.jstr "old")] "extra" := by
  exact C10_configure_preserves_extras [("extra", .jnum 7), ("apiKey", .jstr "old")]
    ⟨" newkey ", "", "n", "y"⟩ "extra" _
    (by decide) (by decide) (by decide) (by decide) (by decide)

/-- Two strings with different first characters are different. -/
theorem ne_string_of_head (a b : String) (h : a.data.head? ≠ b.data.head?) : a ≠ b :=
  fun e => h (by rw [e])

/-- The success line is not a `Logging:` line. -/
theorem successMsg_ne_logging (x : String) : successMsg ≠ "Logging: " ++ x := by
  apply ne_string_of_head
  rw [String.data_append]
  rw [show ("Logging: ").data = 'L' :: ("ogging: ").data from rfl]
  rw [show successMsg.data = '✅' :: (" Successfully logged to devlog").data from rfl]
  simp

/-- The success line is not a `Date:` line. -/
theorem successMsg_ne_date (x : String) : successMsg ≠ "Date: " ++ x := by
  apply ne_string_of_head
  rw [String.data_append]
  rw [show ("Date: ").data = 'D' :: ("ate: ").data from rfl]
  rw [show successMsg.data = '✅' :: (" Successfully logged to devlog").data from rfl]
  simp

/-- C1 counterexample: with `includeCommitHash` true in the configuration,
the invocation `log "Manual note" 2025-01-01` runs a git subprocess (the
hash lookup) and posts the text `[abcdef12] Manual note`, not the unchanged
message — the claimed "no git call regardless of includeCommitHash" and
"text unchanged" both fail at this input. -/
theorem C1_counterexample :
    (log (some "Manual note") (some "2025-01-01") (.valid cfgHashOn) gitEnvA
        "2025-06-24" httpOk).gitCalls = ["git log -1 --pretty=%H"] ∧
    (log (some "Manual note") (some "2025-01-01") (.valid cfgHashOn) gitEnvA
        "2025-06-24" httpOk).request.map PostRequest.text =
      some "[abcdef12] Manual note" ∧
    ¬ (log (some "Manual note") (some "2025-01-01") (.valid cfgHashOn) gitEnvA
        "2025-06-24" httpOk).request.map PostRequest.text = some "Manual note" := by
  refine ⟨by decide, by decide, by decide⟩

/-- C1 (amended): for `log "Manual note" 2025-01-01` with a truthy `apiKey`
and `includeCommitHash` unset or falsy, no git subprocess runs and the
posted body is exactly `{text := "Manual note", date := "2025-01-01"}`;
with a truthy `includeCommitHash` the hash subprocess does run and a
resolvable hash is prefixed to the text. -/
theorem C1_log_manual_note (cfg : JObj) (g : GitEnv) (today : String) (http : HttpEnv)
    (hkey : jsTruthy (lookupKey cfg "apiKey") = true)
    (hnohash : jsTruthy (lookupKey cfg "includeCommitHash") = false) :
    (log (some "Manual note") (some "2025-01-01") (.valid cfg) g today http).gitCalls = [] ∧
    (log (some "Manual note") (some "2025-01-01") (.valid cfg) g today http).request.map
        (fun q => (q.text, q.date)) = some ("Manual note", some "2025-01-01") := by
  have hm : (("Manual note" : String).data.isEmpty) = false := by decide
  have hd : (("2025-01-01" : String).data.isEmpty) = false := by decide
  rcases http with ⟨ne, ⟨ok, st, stt, bt, je, mf⟩⟩
  cases ne <;> cases ok <;> rcases je with _ | e <;>
    simp [log, loadConfig, postToApi, formatLogEntry, formatCallsGit, logDate,
      optStrTruthy, hkey, hnohash, hm, hd]

/-- C1 witness: a concrete run with `includeCommitHash` unset posts the
message and date untouched with no git call. -/
theorem C1_witness :
    (log (some "Manual note") (some "2025-01-01") (.valid cfgHashOff) gitEnvA
        "2025-06-24" httpOk).gitCalls = [] ∧
    (log (some "Manual note") (some "2025-01-01") (.valid cfgHashOff) gitEnvA
        "2025-06-24" httpOk).request.map
        (fun q => (q.text, q.date)) = some ("Manual note", some "2025-01-01") := by
  exact C1_log_manual_note cfgHashOff gitEnvA "2025-06-24" httpOk (by decide) (by decide)

/-- C2 counterexample: the empty string is an explicit date argument
(`devlog log "note" ""` reaches `log` with `customDate = ""`), but because
`""` is falsy in `customDate || ...` the date sent is the current date, not
the given argument — "an explicit date argument always overrides" fails at
this input. -/
theorem C2_counterexample :
    (log (some "note") (some "") (.valid cfgHashOff) gitEnvA "2025-06-24"
        httpOk).request.map PostRequest.date = some (some "2025-06-24") ∧
    ¬ (log (some "note") (some "") (.valid cfgHashOff) gitEnvA "2025-06-24"
        httpOk).request.map PostRequest.date = some (some "") := by
  refine ⟨by decide, by decide⟩

/-- C2 (amended): with a truthy `apiKey` and a nonempty message: when
`includeDate` is truthy and no explicit date is supplied, the date sent is
the current date string produced by the clock; a NONEMPTY explicit date
argument always overrides both the current date and the `includeDate`
setting (an empty-string argument instead falls back to the default date
logic). -/
theorem C2_date_logic (m : String) (cfg : JObj) (g : GitEnv) (today : String)
    (http : HttpEnv)
    (hm : m.data.isEmpty = false)
    (hkey : jsTruthy (lookupKey cfg "apiKey") = true) :
    (jsTruthy (lookupKey cfg "includeDate") = true →
       (log (some m) none (.valid cfg) g today http).request.map PostRequest.date =
         some (some today)) ∧
    (∀ d : String, d.data.isEmpty = false →
       (log (some m) (some d) (.valid cfg) g today http).request.map PostRequest.date =
         some (some d)) := by
  constructor
  · intro hinc
    rcases http with ⟨ne, ⟨ok, st, stt, bt, je, mf⟩⟩
    cases ne <;> cases ok <;> rcases je with _ | e <;>
      simp [log, loadConfig, postToApi, logDate, optStrTruthy, hkey, hinc, hm]
  · intro d hd
    rcases http with ⟨ne, ⟨ok, st, stt, bt, je, mf⟩⟩
    cases ne <;> cases ok <;> rcases je with _ | e <;>
      simp [log, loadConfig, postToApi, logDate, optStrTruthy, hkey, hm, hd]

/-- C2 witness: concretely, no explicit date yields the clock date, and the
explicit date `2025-01-01` overrides it. -/
theorem C2_witness :
    (log (some "note") none (.valid cfgHashOff) gitEnvA "2025-06-24"
        httpOk).request.map PostRequest.date = some (some "2025-06-24") ∧
    (log (some "note") (some "2025-01-01") (.valid cfgHashOff) gitEnvA "2025-06-24"
        httpOk).request.map PostRequest.date = some (some "2025-01-01") := by
  have h := C2_date_logic "note" cfgHashOff gitEnvA "2025-06-24" httpOk
    (by decide) (by decide)
  exact ⟨h.1 (by decide), h.2 "2025-01-01" (by decide)⟩

/-- C9 counterexample: the dispatcher forwards the empty string as an
explicit date argument, but the posted date field is then the default date,
not the supplied string — "every string ... is sent verbatim" fails at the
input `log "note" ""`. -/
theorem C9_counterexample :
    dispatch ["log", "note", ""] = Action.logCustom "note" (some "") ∧
    ¬ (log (some "note") (some "") (.valid cfgHashOff) gitEnvA "2025-06-24"
        httpFail).request.map PostRequest.date = some (some "") := by
  refine ⟨by decide, by decide⟩

/-- C9 (amended): every NONEMPTY string supplied as the explicit date
argument of `log <message> <date>` — including arbitrary non-date strings,
with no format validation — is forwarded verbatim as the date field of the
POST body; the empty string instead falls back to the default date logic. -/
theorem C9_date_forwarded_verbatim (msg d : String) (cfg : JObj) (g : GitEnv)
    (today : String) (http : HttpEnv)
    (hmsg : msg.data.isEmpty = false) (hd : d.data.isEmpty = false)
    (hkey : jsTruthy (lookupKey cfg "apiKey") = true) :
    dispatch ["log", msg, d] = Action.logCustom msg (some d) ∧
    (log (some msg) (some d) (.valid cfg) g today http).request.map PostRequest.date =
      some (some d) := by
  constructor
  · simp [dispatch]
  · rcases http with ⟨ne, ⟨ok, st, stt, bt, je, mf⟩⟩
    cases ne <;> cases ok <;> rcases je with _ | e <;>
      simp [log, loadConfig, postToApi, logDate, optStrTruthy, hkey, hmsg, hd]

/-- C9 witness: the non-date string `banana` is forwarded unchanged. -/
theorem C9_witness :
    dispatch ["log", "note", "banana"] = Action.logCustom "note" (some "banana") ∧
    (log (some "note") (some "banana") (.valid cfgHashOff) gitEnvA "2025-06-24"
        httpFail).request.map PostRequest.date = some (some "banana") := by
  exact C9_date_forwarded_verbatim "note" "banana" cfgHashOff gitEnvA "2025-06-24"
    httpFail (by decide) (by decide) (by decide)

/-- C4: when the fetch succeeds at transport level but the response is
non-2xx, the process exits with status 1; the single error line printed is
exactly `Error posting to API: API request failed: <status> <statusText>`
followed by the response body on the next line — in particular the status
code digits and the response body occur inside it — and the success
message is never printed. -/
theorem C4_non2xx_exits_nonzero (m : String) (customDate : Option String) (cfg : JObj)
    (g : GitEnv) (today : String) (http : HttpEnv)
    (hm : m.data.isEmpty = false)
    (hkey : jsTruthy (lookupKey cfg "apiKey") = true)
    (hnet : http.networkErr = none)
    (hok : http.response.ok = false) :
    (log (some m) customDate (.valid cfg) g today http).exitCode = some 1 ∧
    (log (some m) customDate (.valid cfg) g today http).stderr =
      ["Error posting to API: " ++ apiErrorMessage http.response] ∧
    List.IsInfix (toString http.response.status).data
      (("Error posting to API: " ++ apiErrorMessage http.response).data) ∧
    List.IsInfix http.response.bodyText.data
      (("Error posting to API: " ++ apiErrorMessage http.response).data) ∧
    successMsg ∉ (log (some m) customDate (.valid cfg) g today http).stdout := by
  have hinf1 : List.IsInfix (toString http.response.status).data
      (("Error posting to API: " ++ apiErrorMessage http.response).data) := by
    have h := List.infix_append
      (("Error posting to API: ").data ++ ("API request failed: ").data)
      (toString http.response.status).data
      ((" ").data ++ http.response.statusText.data ++ ("\n").data ++
        http.response.bodyText.data)
    simpa [apiErrorMessage, String.data_append, List.append_assoc] using h
  have hinf2 : List.IsInfix http.response.bodyText.data
      (("Error posting to API: " ++ apiErrorMessage http.response).data) := by
    have h := List.infix_append
      (("Error posting to API: ").data ++ ("API request failed: ").data ++
        (toString http.response.status).data ++ (" ").data ++
        http.response.statusText.data ++ ("\n").data)
      http.response.bodyText.data []
    simpa [apiErrorMessage, String.data_append, List.append_assoc] using h
  refine ⟨?_, ?_, hinf1, hinf2, ?_⟩
  · rcases http with ⟨ne, resp⟩
    rcases ne with _ | e
    · simp only at hok
      simp [log, loadConfig, postToApi, optStrTruthy, hm, hkey, hok]
    · exact absurd hnet (by simp)
  · rcases http with ⟨ne, resp⟩
    rcases ne with _ | e
    · simp only at hok
      simp [log, loadConfig, postToApi, optStrTruthy, hm, hkey, hok]
    · exact absurd hnet (by simp)
  · rcases http with ⟨ne, resp⟩
    rcases ne with _ | e
    · simp only at hok
      have hstdout : (log (some m) customDate (.valid cfg) g today ⟨none, resp⟩).stdout =
          ["Logging: " ++ formatLogEntry m cfg g] ++
            (if optStrTruthy (logDate customDate cfg today) = true then
              ["Date: " ++ (logDate customDate cfg today).getD ""] else []) := by
        simp [log, loadConfig, postToApi, optStrTruthy, hm, hkey, hok]
      intro hmem
      rw [hstdout] at hmem
      rcases List.mem_append.1 hmem with h1 | h2
      · exact successMsg_ne_logging _ (List.mem_singleton.1 h1)
      · by_cases hdt : optStrTruthy (logDate customDate cfg today) = true
        · rw [if_pos hdt] at h2
          exact successMsg_ne_date _ (List.mem_singleton.1 h2)
        · rw [if_neg hdt] at h2
          exact List.not_mem_nil _ h2
    · exact absurd hnet (by simp)

/-- C4 witness: a concrete 404 with body `no such log` exits 1 with the full
error line and no success message. -/
theorem C4_witness :
    (log (some "note") none (.valid cfgHashOff) gitEnvA "2025-06-24"
        httpFail).exitCode = some 1 ∧
    (log (some "note") none (.valid cfgHashOff) gitEnvA "2025-06-24"
        httpFail).stderr =
      ["Error posting to API: " ++ apiErrorMessage httpFail.response] ∧
    successMsg ∉ (log (some "note") none (.valid cfgHashOff) gitEnvA "2025-06-24"
        httpFail).stdout := by
  have h := C4_non2xx_exits_nonzero "note" none cfgHashOff gitEnvA "2025-06-24" httpFail
    (by decide) (by decide) rfl rfl
  exact ⟨h.1, h.2.1, h.2.2.2.2⟩

end DevLog
